import Mathlib

/-!
Shallow embedding of `torch-sys/build.rs` (tch-rs build script): libtorch
resolution, device-token normalization, download URL construction, archive
extraction and backend feature detection.  Rust `String` operations are
modelled over `List Char` (ASCII fragment: `to_lowercase`/`trim` are modelled
by their ASCII behaviour, which agrees with Rust on all ASCII input).
Paths (`PathBuf`) are modelled as lists of components, the filesystem as a
boolean existence predicate, the environment as a partial map from variable
names to values, and every `println!("cargo:rerun-if-env-changed=..")` /
`env::var` call is recorded in an explicit event trace.
-/

namespace TorchSys

/-- Whitespace characters trimmed by Rust `str::trim` (ASCII fragment). -/
def isWsChar (c : Char) : Bool :=
  c == ' ' || c == '\t' || c == '\n' || c == '\r' || c == '\x0b' || c == '\x0c'

/-- Rust `str::trim` on char lists: drop whitespace at both ends. -/
def trimL (l : List Char) : List Char :=
  ((l.dropWhile isWsChar).reverse.dropWhile isWsChar).reverse

/-- Rust `str::to_lowercase` (ASCII fragment): lower-case every character. -/
def toLowerL (l : List Char) : List Char := l.map Char.toLower

/-- Rust `str::trim_start_matches("cu")`: repeatedly remove a leading "cu". -/
def stripCu : List Char → List Char
  | [] => []
  | [c] => [c]
  | c :: d :: rest => if c = 'c' ∧ d = 'u' then stripCu rest else c :: d :: rest

/-- Does the char list start with 'c','u'?  (Used to state when `stripCu`
acts at all.) -/
def startsCu : List Char → Bool
  | c :: d :: _ => c == 'c' && d == 'u'
  | _ => false

/-- Auxiliary for `splitChar`: accumulate the current fragment (reversed). -/
def splitCharAux (sep : Char) : List Char → List Char → List (List Char)
  | [], acc => [acc.reverse]
  | c :: cs, acc =>
    if c = sep then acc.reverse :: splitCharAux sep cs []
    else splitCharAux sep cs (c :: acc)

/-- Rust `str::split(sep)` on char lists (e.g. "a.b" ↦ ["a","b"],
"" ↦ [""], ".a" ↦ ["","a"]). -/
def splitChar (sep : Char) (l : List Char) : List (List Char) :=
  splitCharAux sep l []

/-- Device-token normalization from `prepare_libtorch_dir` (build.rs:238-247):
`cuda_env.trim().to_lowercase().trim_start_matches("cu").split('.').take(2)
.fold("cu", ..)` on char lists. -/
def normList (l : List Char) : List Char :=
  'c' :: 'u' :: ((splitChar '.' (stripCu (toLowerL (trimL l)))).take 2).flatten

/-- Device-token normalization on `String` (build.rs:238-247). -/
def normalizeDevice (s : String) : String := ⟨normList s.data⟩

/-- The compile-time expected PyTorch version (build.rs:13). -/
def TORCH_VERSION : String := "2.0.1"

/-- The device tokens mapped to a URL suffix by the per-OS allow-lists
(build.rs:265-270 and build.rs:291-296; both tables list the same keys). -/
def deviceAllowList : List String :=
  ["cpu", "cu102", "cu113", "cu116", "cu117", "cu118"]

/-- The Linux URL-suffix allow-list (build.rs:264-272): unmapped tokens have
no suffix (the build script bails there). -/
def linuxSuffix (device : String) : Option String :=
  match device with
  | "cpu" => some "%2Bcpu"
  | "cu102" => some "%2Bcu102"
  | "cu113" => some "%2Bcu113"
  | "cu116" => some "%2Bcu116"
  | "cu117" => some "%2Bcu117"
  | "cu118" => some "%2Bcu118"
  | _ => none

/-- The Windows URL-suffix table (build.rs:290-298): the default arm yields
the empty suffix instead of failing. -/
def windowsSuffix (device : String) : String :=
  match device with
  | "cpu" => "%2Bcpu"
  | "cu102" => "%2Bcu102"
  | "cu113" => "%2Bcu113"
  | "cu116" => "%2Bcu116"
  | "cu117" => "%2Bcu117"
  | "cu118" => "%2Bcu118"
  | _ => ""

/-- A token is in "normal form" when it is 'c','u' followed by characters
that are not whitespace, not dots, already lower-case, and not beginning
with a further "cu".  (Auxiliary notion used to state for exactly which
outputs re-normalization is the identity.) -/
def goodChar (c : Char) : Bool :=
  !(isWsChar c) && !(c == '.') && (Char.toLower c == c)

/-- Normal-form predicate for device tokens (see `goodChar`). -/
def goodToken (t : String) : Bool :=
  startsCu t.data && (t.data.drop 2).all goodChar && !(startsCu (t.data.drop 2))

/-- `str::strip_prefix` on char lists: drop `p` from the front of `s` when it
is a literal prefix, else `none`. -/
def dropPreL : List Char → List Char → Option (List Char)
  | [], s => some s
  | _ :: _, [] => none
  | c :: p, d :: s => if c = d then dropPreL p s else none

/-- `line.strip_prefix(p)` on `String` (models `strip_prefix` in
`SystemInfo::new`, build.rs:181/190/195/198). -/
def dropPre? (p s : String) : Option String :=
  (dropPreL p.data s.data).map String.mk

/-- Target OS enum (build.rs:31-35). -/
inductive Os where
  | linux
  | macos
  | windows
deriving DecidableEq, Repr

/-- Build-script observable events: an environment variable being read, a
`cargo:rerun-if-env-changed` directive, a download, an archive extraction. -/
inductive Ev where
  | readVar : String → Ev
  | rerun : String → Ev
  | download : String → Ev
  | extractArchive : Ev
deriving DecidableEq, Repr

/-- Ambient state the build script runs in: the environment, the stdout of
the PyTorch-details python probe (`none` = the interpreter could not be run),
the filesystem (existence of a path, given as components), and the wheel URL
the PyPI index would return for macOS/aarch64 (`none` = lookup fails). -/
structure World where
  env : String → Option String
  pytorchProbe : Option (List String)
  fsExists : List String → Bool
  pypiWheelUrl : Option String

/-- The record built by `SystemInfo::new` (build.rs:39-45); paths are lists
of components. -/
structure SystemInfo where
  os : Os
  python_interpreter : String
  cxx11_abi : String
  libtorch_include_dirs : List (List String)
  libtorch_lib_dir : List String
deriving DecidableEq, Repr

/-- Mutable state threaded through the probe-output loop of
`SystemInfo::new` (build.rs:179-201). -/
structure ProbeState where
  cxx11_abi : Option String
  includes : List (List String)
  libdir : Option (List String)
deriving DecidableEq, Repr

/-- Events of one `env_var_rerun(name)` call (build.rs:134-137): the rerun
directive is printed at the moment the variable is read. -/
def rerunEvs (name : String) : List Ev := [Ev.rerun name, Ev.readVar name]

/-- Events of reading `LIBTORCH_BYPASS_VERSION_CHECK` on a version line
(build.rs:182). -/
def bypassEvs : List Ev := rerunEvs "LIBTORCH_BYPASS_VERSION_CHECK"

/-- Processing of a single probe-output line (body of the `for` loop in
`SystemInfo::new`, build.rs:180-201). -/
def probeLine (bp : Option String) (st : ProbeState) (line : String) :
    Except String ProbeState × List Ev :=
  match dropPre? "LIBTORCH_VERSION: " line with
  | some version =>
    if bp.isNone = true ∧ version ≠ TORCH_VERSION then
      (.error ("this tch version expects PyTorch " ++ TORCH_VERSION ++ ", got " ++ version),
       bypassEvs)
    else (.ok st, bypassEvs)
  | none =>
    match dropPre? "LIBTORCH_CXX11: " line with
    | some b =>
      (.ok (if b = "True" then { st with cxx11_abi := some "1" }
            else if b = "False" then { st with cxx11_abi := some "0" }
            else st), [])
    | none =>
      match dropPre? "LIBTORCH_INCLUDE: " line with
      | some path => (.ok { st with includes := st.includes ++ [[path]] }, [])
      | none =>
        match dropPre? "LIBTORCH_LIB: " line with
        | some path => (.ok { st with libdir := some [path] }, [])
        | none => (.ok st, [])

/-- The whole probe-output loop (build.rs:180-201): stop at the first
erroring line, otherwise thread the state through. -/
def probeLines (bp : Option String) : List String → ProbeState →
    Except String ProbeState × List Ev
  | [], st => (.ok st, [])
  | l :: ls, st =>
    match (probeLine bp st l).1 with
    | .error e => (.error e, (probeLine bp st l).2)
    | .ok st2 =>
      ((probeLines bp ls st2).1, (probeLine bp st l).2 ++ (probeLines bp ls st2).2)

/-- `/usr/lib/libtorch.so`, the well-known Linux system location
(build.rs:225). -/
def usrLibtorchSo : List String := ["/usr", "lib", "libtorch.so"]

/-- `SystemInfo::check_system_location` (build.rs:223-228). -/
def check_system_location (w : World) (os : Os) : Option (List String) :=
  match os with
  | .linux => if w.fsExists usrLibtorchSo then some ["/usr"] else none
  | _ => none

/-- Device-token derivation (build.rs:236-254): normalize the override on
Linux/Windows, bail on macOS with an override, default to "cpu" without. -/
def deviceTokenOf (cuda : Option String) (os : Os) : Except String String :=
  match cuda, os with
  | some cudaEnv, .linux => .ok (normalizeDevice cudaEnv)
  | some cudaEnv, .windows => .ok (normalizeDevice cudaEnv)
  | some _, .macos =>
    .error "CUDA was specified with TORCH_CUDA_VERSION, but pre-built binaries with CUDA are only available for Linux and Windows, not: Macos."
  | none, _ => .ok "cpu"

/-- URL construction (build.rs:261-299).  Linux: allow-list or bail;
Windows: same table but the default arm is the empty suffix; macOS:
CPU build, except aarch64 which asks the PyPI index. -/
def buildUrl (w : World) (os : Os) (device : String) : Except String String :=
  match os with
  | .linux =>
    match linuxSuffix device with
    | some suf =>
      .ok ("https://download.pytorch.org/libtorch/" ++ device ++
           "/libtorch-cxx11-abi-shared-with-deps-" ++ TORCH_VERSION ++ suf ++ ".zip")
    | none => .error ("unsupported device " ++ device ++ ", TORCH_CUDA_VERSION may be set incorrectly?")
  | .macos =>
    if w.env "CARGO_CFG_TARGET_ARCH" = some "aarch64" then
      match w.pypiWheelUrl with
      | some u => .ok u
      | none => .error "Failed to retrieve torch from pypi.  Pre-built version of libtorch for apple silicon are not available."
    else .ok ("https://download.pytorch.org/libtorch/cpu/libtorch-macos-" ++ TORCH_VERSION ++ ".zip")
  | .windows =>
    .ok ("https://download.pytorch.org/libtorch/" ++ device ++
         "/libtorch-win-shared-with-deps-" ++ TORCH_VERSION ++ windowsSuffix device ++ ".zip")

/-- Events of the URL-construction step: only macOS reads
`CARGO_CFG_TARGET_ARCH` (build.rs:275), with no rerun directive. -/
def urlEvs (os : Os) : List Ev :=
  match os with
  | .macos => [Ev.readVar "CARGO_CFG_TARGET_ARCH"]
  | _ => []

/-- `SystemInfo::prepare_libtorch_dir` (build.rs:230-307): LIBTORCH override,
else system location, else download mode (device token, OUT_DIR scratch
directory, skip download when the target directory exists, else build the
URL and download + extract). -/
def prepare_libtorch_dir (w : World) (os : Os) :
    Except String (List String) × List Ev :=
  match w.env "LIBTORCH" with
  | some libtorch => (.ok [libtorch], rerunEvs "LIBTORCH")
  | none =>
    match check_system_location w os with
    | some p => (.ok p, rerunEvs "LIBTORCH")
    | none =>
      match deviceTokenOf (w.env "TORCH_CUDA_VERSION") os with
      | .error e => (.error e, rerunEvs "LIBTORCH" ++ rerunEvs "TORCH_CUDA_VERSION")
      | .ok device =>
        match w.env "OUT_DIR" with
        | none =>
          (.error "OUT_DIR variable not set",
           rerunEvs "LIBTORCH" ++ rerunEvs "TORCH_CUDA_VERSION" ++ [Ev.readVar "OUT_DIR"])
        | some out_dir =>
          if w.fsExists [out_dir, "libtorch"] then
            (.ok [out_dir, "libtorch", "libtorch"],
             rerunEvs "LIBTORCH" ++ rerunEvs "TORCH_CUDA_VERSION" ++ [Ev.readVar "OUT_DIR"])
          else
            match buildUrl w os device with
            | .error e =>
              (.error e,
               rerunEvs "LIBTORCH" ++ rerunEvs "TORCH_CUDA_VERSION" ++ [Ev.readVar "OUT_DIR"] ++ urlEvs os)
            | .ok url =>
              (.ok [out_dir, "libtorch", "libtorch"],
               rerunEvs "LIBTORCH" ++ rerunEvs "TORCH_CUDA_VERSION" ++ [Ev.readVar "OUT_DIR"] ++ urlEvs os
                 ++ [Ev.download url, Ev.extractArchive])

/-- Interpreter selection (build.rs:149-158). -/
def pythonInterpreterOf (w : World) (os : Os) : String :=
  match os with
  | .windows => "python.exe"
  | _ => match w.env "VIRTUAL_ENV" with
         | some _ => "python"
         | none => "python3"

/-- Events of interpreter selection: `VIRTUAL_ENV` is read via
`env::var_os` with no rerun directive, and only on Linux/macOS. -/
def pyEvs (os : Os) : List Ev :=
  match os with
  | .windows => []
  | _ => [Ev.readVar "VIRTUAL_ENV"]

/-- `CARGO_CFG_TARGET_OS` parsing (build.rs:141-146); read via `env::var`
with `expect`, modelled as an error. -/
def parseTargetOs (s : Option String) : Except String Os :=
  match s with
  | none => .error "Unable to get TARGET_OS"
  | some "linux" => .ok .linux
  | some "windows" => .ok .windows
  | some "macos" => .ok .macos
  | some os => .error ("unsupported TARGET_OS " ++ os)

/-- Externally-managed branch of `SystemInfo::new` (build.rs:173-205,219):
run the probe, parse its lines, require a cxx11-abi line and a lib line. -/
def probeBranch (w : World) (os : Os) : Except String SystemInfo × List Ev :=
  match w.pytorchProbe with
  | none => (.error "error running python", [])
  | some lines =>
    (match (probeLines (w.env "LIBTORCH_BYPASS_VERSION_CHECK") lines ⟨none, [], none⟩).1 with
     | .error e => .error e
     | .ok st =>
       match st.cxx11_abi with
       | none => .error "no cxx11 abi returned by python"
       | some abi =>
         match st.libdir with
         | none => .error "no libtorch lib dir found"
         | some libdir => .ok ⟨os, pythonInterpreterOf w os, abi, st.includes, libdir⟩,
     (probeLines (w.env "LIBTORCH_BYPASS_VERSION_CHECK") lines ⟨none, [], none⟩).2)

/-- `LIBTORCH_INCLUDE` override, defaulting to the resolved libtorch
directory (build.rs:208-210). -/
def includesOf (w : World) (libtorch : List String) : List String :=
  match w.env "LIBTORCH_INCLUDE" with
  | some p => [p]
  | none => libtorch

/-- `LIBTORCH_LIB` override, defaulting to the resolved libtorch directory
(build.rs:211-213). -/
def libOf (w : World) (libtorch : List String) : List String :=
  match w.env "LIBTORCH_LIB" with
  | some p => [p]
  | none => libtorch

/-- `LIBTORCH_CXX11_ABI` override, defaulting to "1" (build.rs:217). -/
def abiOf (w : World) : String :=
  match w.env "LIBTORCH_CXX11_ABI" with
  | some a => a
  | none => "1"

/-- Events of the include/lib/abi override reads (build.rs:208-217). -/
def overrideEvs : List Ev :=
  rerunEvs "LIBTORCH_INCLUDE" ++ rerunEvs "LIBTORCH_LIB" ++ rerunEvs "LIBTORCH_CXX11_ABI"

/-- Non-probe branch of `SystemInfo::new` (build.rs:206-218): resolve the
libtorch directory, then derive include dirs and the lib dir from it. -/
def downloadBranch (w : World) (os : Os) : Except String SystemInfo × List Ev :=
  match (prepare_libtorch_dir w os).1 with
  | .error e => (.error e, (prepare_libtorch_dir w os).2)
  | .ok libtorch =>
    (.ok ⟨os, pythonInterpreterOf w os, abiOf w,
          [includesOf w libtorch ++ ["include"],
           includesOf w libtorch ++ ["include", "torch", "csrc", "api", "include"]],
          libOf w libtorch ++ ["lib"]⟩,
     (prepare_libtorch_dir w os).2 ++ overrideEvs)

/-- `SystemInfo::new` (build.rs:140-221), with the `python-extension`
feature off: OS detection, interpreter selection, then either the
externally-managed probe branch (when `LIBTORCH_USE_PYTORCH` is set) or the
directory-resolution branch. -/
def SystemInfo.new (w : World) : Except String SystemInfo × List Ev :=
  match parseTargetOs (w.env "CARGO_CFG_TARGET_OS") with
  | .error e => (.error e, [Ev.readVar "CARGO_CFG_TARGET_OS"])
  | .ok os =>
    match w.env "LIBTORCH_USE_PYTORCH" with
    | some _ =>
      ((probeBranch w os).1,
       [Ev.readVar "CARGO_CFG_TARGET_OS"] ++ pyEvs os ++ rerunEvs "LIBTORCH_USE_PYTORCH"
         ++ (probeBranch w os).2)
    | none =>
      ((downloadBranch w os).1,
       [Ev.readVar "CARGO_CFG_TARGET_OS"] ++ pyEvs os ++ rerunEvs "LIBTORCH_USE_PYTORCH"
         ++ (downloadBranch w os).2)

/-- Replace one environment variable's value in a world. -/
def setEnvVar (w : World) (n v : String) : World :=
  { w with env := fun m => if m = n then some v else w.env m }

/-- The environment variables the build script reads without a
`rerun-if-env-changed` directive (`env::var` / `env::var_os` directly:
build.rs:141,152,257,275). -/
def plainVars : List String :=
  ["CARGO_CFG_TARGET_OS", "VIRTUAL_ENV", "OUT_DIR", "CARGO_CFG_TARGET_ARCH"]

/-- Registration property for an event trace: every variable read appears
with a rerun directive, or is one of the plain (unregistered) reads. -/
def Covered (evs : List Ev) : Prop :=
  ∀ n, Ev.readVar n ∈ evs → Ev.rerun n ∈ evs ∨ n ∈ plainVars

/-- One archive member, identified by its name; a name ending in '/' is a
directory marker (build.rs:110). -/
structure ArchiveEntry where
  name : String
deriving DecidableEq, Repr

/-- Relative path of an archive member (models `mangled_name`, which yields
the sanitized relative path of the entry). -/
def entryComponents (name : String) : List String :=
  ((splitChar '/' name.data).filter (fun l => !l.isEmpty)).map List.asString

/-- `file.name().ends_with('/')` (build.rs:110): directory-marker test. -/
def isDirMarker (e : ArchiveEntry) : Bool :=
  e.name.data.getLast? == some '/'

/-- Paths written by the extraction loop (build.rs:107-125): every entry
whose name does not end in '/'. -/
def extractFiles (entries : List ArchiveEntry) : List (List String) :=
  (entries.filter (fun e => !(isDirMarker e))).map (fun e => entryComponents e.name)

/-- `outpath.join(d).exists()`: some path in the (target-relative) file set
has `d` as its first component. -/
def topLevelExists (fs : List (List String)) (d : String) : Bool :=
  fs.any (fun p => p.head? == some d)

/-- Effect of `fs::rename(target/torch, target/libtorch)` on one path. -/
def renamePath (p : List String) : List String :=
  match p with
  | "torch" :: rest => "libtorch" :: rest
  | p => p

/-- `extract` (build.rs:103-132) on the path-set filesystem model: write all
non-marker entries under the target (beside its pre-existing contents
`pre`), then rename a top-level `torch` entry to `libtorch` when one
exists. -/
def extract (pre : List (List String)) (entries : List ArchiveEntry) : List (List String) :=
  if topLevelExists (pre ++ extractFiles entries) "torch" then
    (pre ++ extractFiles entries).map renamePath
  else pre ++ extractFiles entries

/-- A top-level directory named `d`: some path starts with `d` and goes
deeper (a bare `[d]` is a plain file in the path-set model). -/
def topLevelDirNamed (fs : List (List String)) (d : String) : Bool :=
  fs.any (fun p => p.head? == some d && decide (1 < p.length))

/-- `use_cuda` (build.rs:381-382): the CUDA marker files. -/
def use_cuda (files : List String) : Bool :=
  files.contains "libtorch_cuda.so" || files.contains "torch_cuda.dll"

/-- `use_cuda_cu` (build.rs:383-384). -/
def use_cuda_cu (files : List String) : Bool :=
  files.contains "libtorch_cuda_cu.so" || files.contains "torch_cuda_cu.dll"

/-- `use_cuda_cpp` (build.rs:385-386). -/
def use_cuda_cpp (files : List String) : Bool :=
  files.contains "libtorch_cuda_cpp.so" || files.contains "torch_cuda_cpp.dll"

/-- `use_hip` (build.rs:387-388). -/
def use_hip (files : List String) : Bool :=
  files.contains "libtorch_hip.so" || files.contains "torch_hip.dll"

/-- A concrete Linux world with no overrides, a virtualenv, and an
already-populated scratch directory. -/
def wLinuxPlain : World where
  env := fun n =>
    if n = "CARGO_CFG_TARGET_OS" then some "linux"
    else if n = "OUT_DIR" then some "/out"
    else if n = "VIRTUAL_ENV" then some "/venv"
    else none
  pytorchProbe := none
  fsExists := fun p => p == ["/out", "libtorch"]
  pypiWheelUrl := none

/-- A concrete world with `TORCH_CUDA_VERSION=999` (normalizing to the
unmapped token "cu999") and an empty filesystem. -/
def wWinCuda999 : World where
  env := fun n =>
    if n = "TORCH_CUDA_VERSION" then some "999"
    else if n = "OUT_DIR" then some "/out"
    else none
  pytorchProbe := none
  fsExists := fun _ => false
  pypiWheelUrl := none

/-- A concrete Linux world in externally-managed mode with a well-formed
probe output. -/
def wProbe : World where
  env := fun n =>
    if n = "CARGO_CFG_TARGET_OS" then some "linux"
    else if n = "LIBTORCH_USE_PYTORCH" then some "1"
    else none
  pytorchProbe := some ["LIBTORCH_CXX11: True", "LIBTORCH_LIB: /pt/lib"]
  fsExists := fun _ => false
  pypiWheelUrl := none

/-- A concrete world with no overrides and a scratch directory that is
already populated. -/
def wFresh : World where
  env := fun n => if n = "OUT_DIR" then some "/o" else none
  pytorchProbe := none
  fsExists := fun p => p == ["/o", "libtorch"]
  pypiWheelUrl := none

/-- A concrete world with `TORCH_CUDA_VERSION=cpu` and an empty
filesystem. -/
def wCpu : World where
  env := fun n =>
    if n = "TORCH_CUDA_VERSION" then some "cpu"
    else if n = "OUT_DIR" then some "/out"
    else none
  pytorchProbe := none
  fsExists := fun _ => false
  pypiWheelUrl := none

/-! ## Helper lemmas -/

theorem dropWhile_all_false {q : Char → Bool} :
    ∀ l : List Char, (∀ c ∈ l, q c = false) → l.dropWhile q = l
  | [], _ => rfl
  | c :: cs, h => by
    have hc := h c (by simp)
    simp [List.dropWhile, hc]

theorem trimL_eq_self {l : List Char} (h : ∀ c ∈ l, isWsChar c = false) :
    trimL l = l := by
  unfold trimL
  rw [dropWhile_all_false l h]
  rw [dropWhile_all_false l.reverse (by intro c hc; exact h c (List.mem_reverse.mp hc))]
  exact List.reverse_reverse l

theorem toLowerL_eq_self {l : List Char} (h : ∀ c ∈ l, Char.toLower c = c) :
    toLowerL l = l := by
  unfold toLowerL
  induction l with
  | nil => rfl
  | cons c cs ih =>
    simp only [List.map_cons]
    rw [h c (by simp), ih (fun d hd => h d (by simp [hd]))]

theorem stripCu_of_not_startsCu {l : List Char} (h : startsCu l = false) :
    stripCu l = l := by
  match l with
  | [] => rfl
  | [c] => rfl
  | c :: d :: rest =>
    simp [startsCu] at h
    unfold stripCu
    rw [if_neg]
    rintro ⟨rfl, rfl⟩
    simp at h

theorem splitCharAux_no_sep {sep : Char} :
    ∀ (l acc : List Char), (∀ c ∈ l, (c == sep) = false) →
      splitCharAux sep l acc = [acc.reverse ++ l]
  | [], acc, _ => by simp [splitCharAux]
  | c :: cs, acc, h => by
    have hc : (c == sep) = false := h c (by simp)
    unfold splitCharAux
    rw [if_neg (by simpa using hc)]
    rw [splitCharAux_no_sep cs (c :: acc) (fun d hd => h d (by simp [hd]))]
    simp

theorem goodToken_norm_fix {t : String} (h : goodToken t = true) :
    normalizeDevice t = t := by
  unfold goodToken at h
  simp only [Bool.and_eq_true, Bool.not_eq_true'] at h
  obtain ⟨⟨hcu, hall⟩, hnot⟩ := h
  obtain ⟨r, hdata⟩ : ∃ r, t.data = 'c' :: 'u' :: r := by
    match hd : t.data with
    | [] => rw [hd] at hcu; simp [startsCu] at hcu
    | [c] => rw [hd] at hcu; simp [startsCu] at hcu
    | c :: d :: r =>
      rw [hd] at hcu
      simp [startsCu] at hcu
      exact ⟨r, by rw [hcu.1, hcu.2]⟩
  have hr : t.data.drop 2 = r := by rw [hdata]; rfl
  rw [hr] at hall hnot
  have hgood : ∀ c ∈ r, goodChar c = true := List.all_eq_true.mp hall
  have hws : ∀ c ∈ 'c' :: 'u' :: r, isWsChar c = false := by
    intro c hc
    rcases List.mem_cons.mp hc with rfl | hc
    · decide
    rcases List.mem_cons.mp hc with rfl | hc
    · decide
    have := hgood c hc
    unfold goodChar at this
    simp only [Bool.and_eq_true, Bool.not_eq_true'] at this
    exact this.1.1
  have hlow : ∀ c ∈ 'c' :: 'u' :: r, Char.toLower c = c := by
    intro c hc
    rcases List.mem_cons.mp hc with rfl | hc
    · decide
    rcases List.mem_cons.mp hc with rfl | hc
    · decide
    have := hgood c hc
    unfold goodChar at this
    simp only [Bool.and_eq_true, beq_iff_eq] at this
    exact this.2
  have hdot : ∀ c ∈ r, (c == '.') = false := by
    intro c hc
    have := hgood c hc
    unfold goodChar at this
    simp only [Bool.and_eq_true, Bool.not_eq_true'] at this
    exact this.1.2
  unfold normalizeDevice normList
  rw [hdata]
  rw [trimL_eq_self hws, toLowerL_eq_self hlow]
  have hstrip : stripCu ('c' :: 'u' :: r) = r := by
    unfold stripCu
    rw [if_pos ⟨rfl, rfl⟩]
    exact stripCu_of_not_startsCu hnot
  rw [hstrip]
  unfold splitChar
  rw [splitCharAux_no_sep r [] hdot]
  show String.mk ('c' :: 'u' :: ([].reverse ++ r ++ [])) = t
  rw [List.reverse_nil, List.nil_append, List.append_nil, ← hdata]

theorem normalizeDevice_data (s : String) :
    ∃ r, (normalizeDevice s).data = 'c' :: 'u' :: r :=
  ⟨_, rfl⟩

theorem normalizeDevice_ne_cpu (s : String) : normalizeDevice s ≠ "cpu" := by
  intro h
  have hd := congrArg String.data h
  have hcpu : ("cpu" : String).data = ['c', 'p', 'u'] := rfl
  rw [hcpu] at hd
  unfold normalizeDevice normList at hd
  simp only [List.cons.injEq] at hd
  exact absurd hd.2.1 (by decide)

theorem linuxSuffix_eq_none {d : String} (h : d ∉ deviceAllowList) :
    linuxSuffix d = none := by
  unfold linuxSuffix
  split
  all_goals simp_all [deviceAllowList]

theorem windowsSuffix_eq_empty {d : String} (h : d ∉ deviceAllowList) :
    windowsSuffix d = "" := by
  unfold windowsSuffix
  split
  all_goals simp_all [deviceAllowList]

theorem dropPreL_self_append : ∀ (p s : List Char), dropPreL p (p ++ s) = some s
  | [], s => rfl
  | c :: p, s => by simp [dropPreL, dropPreL_self_append p s]

theorem dropPre?_self_append (p s : String) : dropPre? p (p ++ s) = some s := by
  simp [dropPre?, String.data_append, dropPreL_self_append]

theorem dropPreL_some : ∀ (p s r : List Char), dropPreL p s = some r → s = p ++ r
  | [], s, r, h => by simp [dropPreL] at h; simp [h]
  | c :: p, [], r, h => by simp [dropPreL] at h
  | c :: p, d :: s, r, h => by
    by_cases hc : c = d
    · subst hc
      simp [dropPreL] at h
      simpa using dropPreL_some p s r h
    · simp [dropPreL, hc] at h

theorem dropPre?_some {p s r : String} (h : dropPre? p s = some r) : s = p ++ r := by
  unfold dropPre? at h
  rcases Option.map_eq_some'.mp h with ⟨l, hl, hmk⟩
  have hdata : s.data = (p ++ r).data := by
    rw [String.data_append, dropPreL_some p.data s.data l hl, ← hmk]
  calc s = String.mk s.data := rfl
  _ = String.mk (p ++ r).data := by rw [hdata]
  _ = p ++ r := rfl


theorem probeLine_evs (bp : Option String) (st : ProbeState) (l : String) :
    (probeLine bp st l).2 = [] ∨ (probeLine bp st l).2 = bypassEvs := by
  unfold probeLine
  split
  · split
    · right; rfl
    · right; rfl
  · split
    · left; rfl
    · split
      · left; rfl
      · split
        · left; rfl
        · left; rfl

theorem probeLines_sub (bp : Option String) :
    ∀ (lines : List String) (st : ProbeState),
      ∀ ev ∈ (probeLines bp lines st).2, ev ∈ bypassEvs
  | [], st => by simp [probeLines]
  | l :: ls, st => by
    intro ev hev
    rcases hpl : (probeLine bp st l).1 with e | st2 <;>
      simp only [probeLines, hpl] at hev
    · rcases probeLine_evs bp st l with h | h <;> rw [h] at hev
      · simp at hev
      · exact hev
    · rcases List.mem_append.mp hev with h | h
      · rcases probeLine_evs bp st l with h2 | h2 <;> rw [h2] at h
        · simp at h
        · exact h
      · exact probeLines_sub bp ls st2 ev h

theorem probeLines_covered (bp : Option String) :
    ∀ (lines : List String) (st : ProbeState) (n : String),
      Ev.readVar n ∈ (probeLines bp lines st).2 →
      Ev.rerun n ∈ (probeLines bp lines st).2
  | [], st, n => by simp [probeLines]
  | l :: ls, st, n => by
    intro hev
    rcases hpl : (probeLine bp st l).1 with e | st2 <;>
      simp only [probeLines, hpl] at hev ⊢
    · rcases probeLine_evs bp st l with h | h <;> rw [h] at hev ⊢
      · simp at hev
      · simp [bypassEvs, rerunEvs] at hev ⊢
        simp [hev]
    · rcases List.mem_append.mp hev with h | h
      · rcases probeLine_evs bp st l with h2 | h2 <;> rw [h2] at h
        · simp at h
        · simp [bypassEvs, rerunEvs] at h
          apply List.mem_append.mpr
          left
          rw [h2, h]
          simp [bypassEvs, rerunEvs]
      · exact List.mem_append.mpr (Or.inr (probeLines_covered bp ls st2 n h))

theorem probeLine_ok (bp : Option String) (st : ProbeState) (l : String)
    (hv : dropPre? "LIBTORCH_VERSION: " l = none) :
    ∃ st', (probeLine bp st l).1 = Except.ok st'
      ∧ (st.cxx11_abi.isSome = true → st'.cxx11_abi.isSome = true)
      ∧ (st.libdir.isSome = true → st'.libdir.isSome = true)
      ∧ (l = "LIBTORCH_CXX11: True" → st'.cxx11_abi.isSome = true)
      ∧ (l = "LIBTORCH_CXX11: False" → st'.cxx11_abi.isSome = true)
      ∧ (∀ p : String, l = "LIBTORCH_LIB: " ++ p → st'.libdir.isSome = true) := by
  unfold probeLine
  rw [hv]
  rcases hc : dropPre? "LIBTORCH_CXX11: " l with _ | b
  · rcases hi : dropPre? "LIBTORCH_INCLUDE: " l with _ | q
    · rcases hl2 : dropPre? "LIBTORCH_LIB: " l with _ | q
      · refine ⟨st, rfl, id, id, ?_, ?_, ?_⟩
        · rintro rfl
          rw [show dropPre? "LIBTORCH_CXX11: " "LIBTORCH_CXX11: True" = some "True" from rfl] at hc
          cases hc
        · rintro rfl
          rw [show dropPre? "LIBTORCH_CXX11: " "LIBTORCH_CXX11: False" = some "False" from rfl] at hc
          cases hc
        · rintro p rfl
          rw [dropPre?_self_append] at hl2
          cases hl2
      · refine ⟨_, rfl, id, fun _ => rfl, ?_, ?_, fun p _ => rfl⟩
        · rintro rfl
          rw [show dropPre? "LIBTORCH_CXX11: " "LIBTORCH_CXX11: True" = some "True" from rfl] at hc
          cases hc
        · rintro rfl
          rw [show dropPre? "LIBTORCH_CXX11: " "LIBTORCH_CXX11: False" = some "False" from rfl] at hc
          cases hc
    · refine ⟨_, rfl, id, id, ?_, ?_, ?_⟩
      · rintro rfl
        rw [show dropPre? "LIBTORCH_CXX11: " "LIBTORCH_CXX11: True" = some "True" from rfl] at hc
        cases hc
      · rintro rfl
        rw [show dropPre? "LIBTORCH_CXX11: " "LIBTORCH_CXX11: False" = some "False" from rfl] at hc
        cases hc
      · rintro p rfl
        rw [show dropPre? "LIBTORCH_INCLUDE: " ("LIBTORCH_LIB: " ++ p) = none from rfl] at hi
        cases hi
  · refine ⟨_, rfl, ?_, ?_, ?_, ?_, ?_⟩
    · intro h
      by_cases hb : b = "True"
      · simp [hb]
      · by_cases hb2 : b = "False" <;> simp [hb, hb2, h]
    · intro h
      by_cases hb : b = "True"
      · simpa [hb] using h
      · by_cases hb2 : b = "False" <;> simpa [hb, hb2] using h
    · rintro rfl
      rw [show dropPre? "LIBTORCH_CXX11: " "LIBTORCH_CXX11: True" = some "True" from rfl] at hc
      have : b = "True" := by cases hc; rfl
      simp [this]
    · rintro rfl
      rw [show dropPre? "LIBTORCH_CXX11: " "LIBTORCH_CXX11: False" = some "False" from rfl] at hc
      have : b = "False" := by cases hc; rfl
      simp +decide [this]
    · rintro p rfl
      rw [show dropPre? "LIBTORCH_CXX11: " ("LIBTORCH_LIB: " ++ p) = none from rfl] at hc
      cases hc

theorem probeLines_ok (bp : Option String) :
    ∀ (lines : List String) (st : ProbeState),
      (∀ l ∈ lines, dropPre? "LIBTORCH_VERSION: " l = none) →
      ∃ st2, (probeLines bp lines st).1 = Except.ok st2
        ∧ (st.cxx11_abi.isSome = true → st2.cxx11_abi.isSome = true)
        ∧ (st.libdir.isSome = true → st2.libdir.isSome = true)
        ∧ ("LIBTORCH_CXX11: True" ∈ lines → st2.cxx11_abi.isSome = true)
        ∧ ("LIBTORCH_CXX11: False" ∈ lines → st2.cxx11_abi.isSome = true)
        ∧ (∀ p : String, ("LIBTORCH_LIB: " ++ p) ∈ lines → st2.libdir.isSome = true)
  | [], st, _ => ⟨st, rfl, id, id, by simp, by simp, by simp⟩
  | l :: ls, st, h => by
    obtain ⟨st1, hok, hcm, hlm, hct, hcf, hlt⟩ :=
      probeLine_ok bp st l (h l (by simp))
    obtain ⟨st2, hok2, hcm2, hlm2, hct2, hcf2, hlt2⟩ :=
      probeLines_ok bp ls st1 (fun x hx => h x (by simp [hx]))
    refine ⟨st2, ?_, fun hx => hcm2 (hcm hx), fun hx => hlm2 (hlm hx), ?_, ?_, ?_⟩
    · simp only [probeLines, hok]
      exact hok2
    · intro hmem
      rcases List.mem_cons.mp hmem with rfl | hmem
      · exact hcm2 (hct rfl)
      · exact hct2 hmem
    · intro hmem
      rcases List.mem_cons.mp hmem with rfl | hmem
      · exact hcm2 (hcf rfl)
      · exact hcf2 hmem
    · intro p hmem
      rcases List.mem_cons.mp hmem with heq | hmem
      · exact hlm2 (hlt p heq.symm)
      · exact hlt2 p hmem

theorem probeLine_src (bp : Option String) (st : ProbeState) (l : String)
    (st' : ProbeState) (h : (probeLine bp st l).1 = Except.ok st') :
    (∀ d ∈ st'.includes, d ∈ st.includes ∨ ∃ q, l = "LIBTORCH_INCLUDE: " ++ q ∧ d = [q])
    ∧ (∀ p, st'.libdir = some p →
        st.libdir = some p ∨ ∃ q, l = "LIBTORCH_LIB: " ++ q ∧ p = [q]) := by
  unfold probeLine at h
  rcases hv : dropPre? "LIBTORCH_VERSION: " l with _ | v <;> simp only [hv] at h
  · rcases hc : dropPre? "LIBTORCH_CXX11: " l with _ | b <;> rw [hc] at h
    · rcases hi : dropPre? "LIBTORCH_INCLUDE: " l with _ | q <;> rw [hi] at h
      · rcases hl2 : dropPre? "LIBTORCH_LIB: " l with _ | q <;> rw [hl2] at h
        · cases h
          exact ⟨fun d hd => Or.inl hd, fun p hp => Or.inl hp⟩
        · cases h
          refine ⟨fun d hd => Or.inl hd, fun p hp => ?_⟩
          right
          exact ⟨q, dropPre?_some hl2, by cases hp; rfl⟩
      · cases h
        refine ⟨fun d hd => ?_, fun p hp => Or.inl hp⟩
        rcases List.mem_append.mp hd with hd | hd
        · exact Or.inl hd
        · right
          exact ⟨q, dropPre?_some hi, by simpa using hd⟩
    · cases h
      by_cases hb : b = "True"
      · simp only [hb, if_pos rfl]
        exact ⟨fun d hd => Or.inl hd, fun p hp => Or.inl hp⟩
      · by_cases hb2 : b = "False" <;>
          simp only [hb, hb2, if_neg, if_pos, ite_true, ite_false] <;>
          exact ⟨fun d hd => Or.inl hd, fun p hp => Or.inl hp⟩
  · by_cases hbv : bp.isNone = true ∧ v ≠ TORCH_VERSION
    · rw [if_pos hbv] at h
      exact absurd h (by simp)
    · rw [if_neg hbv] at h
      have h' : Except.ok st = Except.ok st' := h
      cases h'
      exact ⟨fun d hd => Or.inl hd, fun p hp => Or.inl hp⟩

theorem probeLines_src (bp : Option String) :
    ∀ (lines : List String) (st st2 : ProbeState),
      (probeLines bp lines st).1 = Except.ok st2 →
      (∀ d ∈ st2.includes, d ∈ st.includes ∨ ∃ q, ("LIBTORCH_INCLUDE: " ++ q) ∈ lines ∧ d = [q])
      ∧ (∀ p, st2.libdir = some p →
          st.libdir = some p ∨ ∃ q, ("LIBTORCH_LIB: " ++ q) ∈ lines ∧ p = [q])
  | [], st, st2, h => by
    cases h
    exact ⟨fun d hd => Or.inl hd, fun p hp => Or.inl hp⟩
  | l :: ls, st, st2, h => by
    rcases hpl : (probeLine bp st l).1 with e | st1
    · simp only [probeLines, hpl] at h
      cases h
    simp only [probeLines, hpl] at h
    obtain ⟨hinc1, hlib1⟩ := probeLine_src bp st l st1 hpl
    obtain ⟨hinc2, hlib2⟩ := probeLines_src bp ls st1 st2 h
    constructor
    · intro d hd
      rcases hinc2 d hd with hd1 | ⟨q, hq, hdq⟩
      · rcases hinc1 d hd1 with hd0 | ⟨q, hq, hdq⟩
        · exact Or.inl hd0
        · exact Or.inr ⟨q, by simp [hq], hdq⟩
      · exact Or.inr ⟨q, by simp [hq], hdq⟩
    · intro p hp
      rcases hlib2 p hp with hp1 | ⟨q, hq, hpq⟩
      · rcases hlib1 p hp1 with hp0 | ⟨q, hq, hpq⟩
        · exact Or.inl hp0
        · exact Or.inr ⟨q, by simp [hq], hpq⟩
      · exact Or.inr ⟨q, by simp [hq], hpq⟩


theorem covered_append {a b : List Ev} (ha : Covered a) (hb : Covered b) :
    Covered (a ++ b) := by
  intro n hn
  rcases List.mem_append.mp hn with h | h
  · rcases ha n h with h' | h'
    · exact Or.inl (List.mem_append.mpr (Or.inl h'))
    · exact Or.inr h'
  · rcases hb n h with h' | h'
    · exact Or.inl (List.mem_append.mpr (Or.inr h'))
    · exact Or.inr h'

theorem covered_nil : Covered [] := by
  intro n hn
  simp at hn

theorem covered_rerunEvs (m : String) : Covered (rerunEvs m) := by
  intro n hn
  simp [rerunEvs] at hn
  simp [rerunEvs, hn]

theorem covered_plain {m : String} (h : m ∈ plainVars) : Covered [Ev.readVar m] := by
  intro n hn
  simp at hn
  exact Or.inr (hn ▸ h)

theorem covered_pyEvs (os : Os) : Covered (pyEvs os) := by
  cases os
  · exact covered_plain (by simp [plainVars])
  · exact covered_plain (by simp [plainVars])
  · exact covered_nil

theorem covered_urlEvs (os : Os) : Covered (urlEvs os) := by
  cases os
  · exact covered_nil
  · exact covered_plain (by simp [plainVars])
  · exact covered_nil

theorem covered_dlEvs (u : String) : Covered [Ev.download u, Ev.extractArchive] := by
  intro n hn
  simp at hn

theorem covered_probeLines (bp : Option String) (lines : List String) (st : ProbeState) :
    Covered (probeLines bp lines st).2 := by
  intro n hn
  exact Or.inl (probeLines_covered bp lines st n hn)

theorem covered_overrideEvs : Covered overrideEvs := by
  intro n hn
  simp [overrideEvs, rerunEvs] at hn
  rcases hn with rfl | rfl | rfl <;> simp [overrideEvs, rerunEvs]

theorem covered_prepare (w : World) (os : Os) :
    Covered (prepare_libtorch_dir w os).2 := by
  unfold prepare_libtorch_dir
  split
  · exact covered_rerunEvs _
  · split
    · exact covered_rerunEvs _
    · split
      · exact covered_append (covered_rerunEvs _) (covered_rerunEvs _)
      · split
        · exact covered_append (covered_append (covered_rerunEvs _) (covered_rerunEvs _))
            (covered_plain (by simp [plainVars]))
        · split
          · exact covered_append (covered_append (covered_rerunEvs _) (covered_rerunEvs _))
              (covered_plain (by simp [plainVars]))
          · split
            · exact covered_append (covered_append (covered_append (covered_rerunEvs _)
                (covered_rerunEvs _)) (covered_plain (by simp [plainVars]))) (covered_urlEvs os)
            · exact covered_append (covered_append (covered_append (covered_append
                (covered_rerunEvs _) (covered_rerunEvs _)) (covered_plain (by simp [plainVars])))
                (covered_urlEvs os)) (covered_dlEvs _)

theorem covered_probeBranch (w : World) (os : Os) :
    Covered (probeBranch w os).2 := by
  unfold probeBranch
  rcases w.pytorchProbe with _ | lines
  · exact covered_nil
  · exact covered_probeLines _ _ _

theorem covered_downloadBranch (w : World) (os : Os) :
    Covered (downloadBranch w os).2 := by
  unfold downloadBranch
  rcases (prepare_libtorch_dir w os).1 with e | libtorch
  · exact covered_prepare w os
  · exact covered_append (covered_prepare w os) covered_overrideEvs

theorem covered_new (w : World) : Covered (SystemInfo.new w).2 := by
  unfold SystemInfo.new
  rcases parseTargetOs (w.env "CARGO_CFG_TARGET_OS") with e | os
  · exact covered_plain (by simp [plainVars])
  · rcases w.env "LIBTORCH_USE_PYTORCH" with _ | u
    · exact covered_append (covered_append (covered_append
        (covered_plain (by simp [plainVars])) (covered_pyEvs os)) (covered_rerunEvs _))
        (covered_downloadBranch w os)
    · exact covered_append (covered_append (covered_append
        (covered_plain (by simp [plainVars])) (covered_pyEvs os)) (covered_rerunEvs _))
        (covered_probeBranch w os)


theorem probeBranch_setLibtorch (w : World) (v : String) (os : Os) :
    probeBranch (setEnvVar w "LIBTORCH" v) os = probeBranch w os := by
  simp +decide [probeBranch, pythonInterpreterOf, setEnvVar]

theorem new_setLibtorch (w : World) (v u : String)
    (hUP : w.env "LIBTORCH_USE_PYTORCH" = some u) :
    SystemInfo.new (setEnvVar w "LIBTORCH" v) = SystemInfo.new w := by
  have h1 : (setEnvVar w "LIBTORCH" v).env "CARGO_CFG_TARGET_OS" =
      w.env "CARGO_CFG_TARGET_OS" := by
    simp +decide [setEnvVar]
  have h2 : (setEnvVar w "LIBTORCH" v).env "LIBTORCH_USE_PYTORCH" = some u := by
    rw [show (setEnvVar w "LIBTORCH" v).env "LIBTORCH_USE_PYTORCH" =
        w.env "LIBTORCH_USE_PYTORCH" from by simp +decide [setEnvVar]]
    exact hUP
  unfold SystemInfo.new
  rcases hos : parseTargetOs (w.env "CARGO_CFG_TARGET_OS") with e | os <;>
    simp only [h1, h2, hos, hUP]
  rw [probeBranch_setLibtorch]

theorem new_no_libtorch_read (w : World) (u : String)
    (hUP : w.env "LIBTORCH_USE_PYTORCH" = some u) :
    Ev.readVar "LIBTORCH" ∉ (SystemInfo.new w).2 := by
  intro hmem
  unfold SystemInfo.new at hmem
  rcases hos : parseTargetOs (w.env "CARGO_CFG_TARGET_OS") with e | os <;>
    simp only [hos, hUP] at hmem
  · simp at hmem
  · rw [List.mem_append] at hmem
    rcases hmem with hmem | hmem
    · rw [List.mem_append] at hmem
      rcases hmem with hmem | hmem
      · rw [List.mem_append] at hmem
        rcases hmem with hmem | hmem
        · simp at hmem
        · cases os <;> simp [pyEvs] at hmem
      · simp [rerunEvs] at hmem
    · unfold probeBranch at hmem
      rcases hp : w.pytorchProbe with _ | lines <;> simp only [hp] at hmem
      · simp at hmem
      · have hsub := probeLines_sub (w.env "LIBTORCH_BYPASS_VERSION_CHECK") lines ⟨none, [], none⟩
          _ hmem
        simp [bypassEvs, rerunEvs] at hsub


theorem renamePath_eq_self {p : List String} (h : p.head? ≠ some "torch") :
    renamePath p = p := by
  unfold renamePath
  split
  · exact absurd rfl h
  · rfl

/-- C3 (counterexample): device-token normalization is not idempotent: the
input ".cu5" normalizes to "cucu5", and re-normalizing that yields "cu5",
a different token. -/
theorem C3_counterexample :
    normalizeDevice ".cu5" = "cucu5" ∧
    normalizeDevice (normalizeDevice ".cu5") = "cu5" ∧
    normalizeDevice (normalizeDevice ".cu5") ≠ normalizeDevice ".cu5" :=
  ⟨by decide, by decide, by decide⟩

/-- C3 (amended): normalization trims, lower-cases, strips leading "cu",
splits on '.', takes two components and prefixes "cu"; the four quoted
examples hold, every output starts with "cu", and re-normalizing an output
is the identity whenever that output is in normal form (no whitespace, no
dot, lower-case, and not beginning with a second "cu" after its prefix) —
full idempotence fails, see the counterexample. -/
theorem C3_amended_thm :
    (normalizeDevice "9.0" = "cu90" ∧ normalizeDevice "cu90" = "cu90" ∧
     normalizeDevice "  CU11.3.1" = "cu113" ∧ normalizeDevice "11.3.1" = "cu113") ∧
    (∀ s : String, goodToken (normalizeDevice s) = true →
       normalizeDevice (normalizeDevice s) = normalizeDevice s) ∧
    (∀ s : String, ∃ r : List Char, (normalizeDevice s).data = 'c' :: 'u' :: r) :=
  ⟨⟨by decide, by decide, by decide, by decide⟩,
   fun _ h => goodToken_norm_fix h, normalizeDevice_data⟩

/-- C3 witness: the conditional idempotence applies to "9.0". -/
theorem C3_amended_witness :
    normalizeDevice (normalizeDevice "9.0") = normalizeDevice "9.0" :=
  C3_amended_thm.2.1 "9.0" (by decide)

/-- C4: the probe version check on a "LIBTORCH_VERSION: v" line compares v
to "2.0.1" by string equality; it passes exactly when the strings are equal
or the bypass variable is set, and is a hard failure otherwise. -/
theorem C4_thm (bp : Option String) (st : ProbeState) (v : String) :
    (probeLine bp st ("LIBTORCH_VERSION: " ++ v)).1 = Except.ok st ↔
      (bp.isSome = true ∨ v = TORCH_VERSION) := by
  simp only [probeLine, dropPre?_self_append]
  by_cases hb : bp.isNone = true ∧ v ≠ TORCH_VERSION
  · rw [if_pos hb]
    obtain ⟨hn, hv⟩ := hb
    constructor
    · intro h
      cases h
    · rintro (hs | hveq)
      · rw [Option.isNone_iff_eq_none] at hn
        rw [hn] at hs
        cases hs
      · exact absurd hveq hv
  · rw [if_neg hb]
    refine iff_of_true rfl ?_
    by_cases hn : bp.isNone = true
    · right
      by_contra hv
      exact hb ⟨hn, hv⟩
    · left
      rcases bp with _ | x
      · simp at hn
      · rfl

/-- C8: each backend flag depends only on the existence of its own two
marker files, and a directory containing only the CUDA marker yields
cuda = true with the other three flags false. -/
theorem C8_thm :
    (use_cuda ["libtorch_cuda.so"] = true ∧ use_cuda_cu ["libtorch_cuda.so"] = false ∧
     use_cuda_cpp ["libtorch_cuda.so"] = false ∧ use_hip ["libtorch_cuda.so"] = false) ∧
    (∀ f g : List String,
      f.contains "libtorch_cuda.so" = g.contains "libtorch_cuda.so" →
      f.contains "torch_cuda.dll" = g.contains "torch_cuda.dll" →
      use_cuda f = use_cuda g) ∧
    (∀ f g : List String,
      f.contains "libtorch_cuda_cu.so" = g.contains "libtorch_cuda_cu.so" →
      f.contains "torch_cuda_cu.dll" = g.contains "torch_cuda_cu.dll" →
      use_cuda_cu f = use_cuda_cu g) ∧
    (∀ f g : List String,
      f.contains "libtorch_cuda_cpp.so" = g.contains "libtorch_cuda_cpp.so" →
      f.contains "torch_cuda_cpp.dll" = g.contains "torch_cuda_cpp.dll" →
      use_cuda_cpp f = use_cuda_cpp g) ∧
    (∀ f g : List String,
      f.contains "libtorch_hip.so" = g.contains "libtorch_hip.so" →
      f.contains "torch_hip.dll" = g.contains "torch_hip.dll" →
      use_hip f = use_hip g) := by
  refine ⟨by decide, ?_, ?_, ?_, ?_⟩ <;>
    (intro f g h1 h2;
     simp only [use_cuda, use_cuda_cu, use_cuda_cpp, use_hip, h1, h2])

/-- C8 witness: the independence part applied to a directory with the CUDA
marker alone versus one with an extra unrelated file. -/
theorem C8_witness :
    use_cuda ["libtorch_cuda.so"] = use_cuda ["libtorch_cuda.so", "libtorch_hip.so"] :=
  C8_thm.2.1 ["libtorch_cuda.so"] ["libtorch_cuda.so", "libtorch_hip.so"]
    (by decide) (by decide)

/-- C7 (counterexample): an archive containing a single plain-file entry
named "torch" produces no top-level directory named "torch", yet extraction
does not leave the structure untouched: the file is renamed to "libtorch". -/
theorem C7_counterexample :
    topLevelDirNamed (([] : List (List String)) ++ extractFiles [⟨"torch"⟩]) "torch" = false ∧
    extract [] [⟨"torch"⟩] ≠ ([] : List (List String)) ++ extractFiles [⟨"torch"⟩] ∧
    extract [] [⟨"torch"⟩] = [["libtorch"]] :=
  ⟨by decide, by decide, by decide⟩

/-- C7 (amended): extraction writes exactly the non-directory-marker entries
to their relative paths under the target; afterwards the rename to
"libtorch" happens if and only if any top-level entry (file or directory)
named "torch" exists, and with no such entry the structure is left
untouched. -/
theorem C7_amended_thm (pre : List (List String)) (entries : List ArchiveEntry) :
    (∀ p, p ∈ pre ++ extractFiles entries ↔
       (p ∈ pre ∨ ∃ e ∈ entries, isDirMarker e = false ∧ entryComponents e.name = p)) ∧
    (topLevelExists (pre ++ extractFiles entries) "torch" = false →
       extract pre entries = pre ++ extractFiles entries) ∧
    (topLevelExists (pre ++ extractFiles entries) "torch" = true →
       (∀ r, ("torch" :: r) ∈ pre ++ extractFiles entries →
          ("libtorch" :: r) ∈ extract pre entries) ∧
       (∀ p ∈ pre ++ extractFiles entries, p.head? ≠ some "torch" →
          p ∈ extract pre entries)) := by
  refine ⟨?_, ?_, ?_⟩
  · intro p
    simp only [List.mem_append, extractFiles, List.mem_map, List.mem_filter,
      Bool.not_eq_true']
    constructor
    · rintro (hp | ⟨e, ⟨he, hm⟩, hp⟩)
      · exact Or.inl hp
      · exact Or.inr ⟨e, he, hm, hp⟩
    · rintro (hp | ⟨e, he, hm, hp⟩)
      · exact Or.inl hp
      · exact Or.inr ⟨e, ⟨he, hm⟩, hp⟩
  · intro h
    unfold extract
    rw [if_neg (by simp [h])]
  · intro h
    constructor
    · intro r hr
      unfold extract
      rw [if_pos h]
      exact List.mem_map.mpr ⟨"torch" :: r, hr, rfl⟩
    · intro p hp hh
      unfold extract
      rw [if_pos h]
      exact List.mem_map.mpr ⟨p, hp, renamePath_eq_self hh⟩

/-- C7 witness: extraction of a one-file archive with no "torch" entry. -/
theorem C7_witness :
    extract [] [⟨"a/b.txt"⟩] = [["a", "b.txt"]] :=
  ((C7_amended_thm [] [⟨"a/b.txt"⟩]).2.1 (by decide)).trans (by decide)


/-- C1 (counterexample): on Windows an unmapped device token is not a hard
failure: with TORCH_CUDA_VERSION=999 (token "cu999", outside the
allow-list) download-mode resolution succeeds, downloading a URL built with
an empty suffix. -/
theorem C1_counterexample :
    (prepare_libtorch_dir wWinCuda999 Os.windows).1 =
      Except.ok ["/out", "libtorch", "libtorch"] ∧
    Ev.download "https://download.pytorch.org/libtorch/cu999/libtorch-win-shared-with-deps-2.0.1.zip"
      ∈ (prepare_libtorch_dir wWinCuda999 Os.windows).2 :=
  ⟨rfl, by decide⟩

/-- C1 (amended): for every normalized device token outside the allow-list,
URL construction is a hard failure on Linux, while on Windows it silently
succeeds with the empty URL suffix. -/
theorem C1_amended_thm (w : World) (s : String)
    (h : normalizeDevice s ∉ deviceAllowList) :
    (∀ u, buildUrl w Os.linux (normalizeDevice s) ≠ Except.ok u) ∧
    buildUrl w Os.windows (normalizeDevice s) =
      Except.ok ("https://download.pytorch.org/libtorch/" ++ normalizeDevice s ++
        "/libtorch-win-shared-with-deps-" ++ TORCH_VERSION ++ ".zip") := by
  constructor
  · intro u hu
    unfold buildUrl at hu
    simp only [linuxSuffix_eq_none h] at hu
    cases hu
  · unfold buildUrl
    rw [windowsSuffix_eq_empty h]
    rw [String.append_empty]

/-- C1 witness: the amended claim at the concrete token "cu999". -/
theorem C1_amended_witness :
    buildUrl wWinCuda999 Os.windows (normalizeDevice "999") =
      Except.ok ("https://download.pytorch.org/libtorch/" ++ normalizeDevice "999" ++
        "/libtorch-win-shared-with-deps-" ++ TORCH_VERSION ++ ".zip") :=
  (C1_amended_thm wWinCuda999 "999" (by decide)).2

/-- C9: TORCH_CUDA_VERSION=cpu normalizes to "cucpu" on Linux and Windows,
"cucpu" is not in the allow-list, no input ever normalizes to "cpu" (the
"cpu" token only arises when the variable is unset), and on Linux with a
fresh scratch directory download-mode resolution therefore fails. -/
theorem C9_thm :
    (deviceTokenOf (some "cpu") Os.linux = Except.ok "cucpu" ∧
     deviceTokenOf (some "cpu") Os.windows = Except.ok "cucpu") ∧
    "cucpu" ∉ deviceAllowList ∧
    (∀ s : String, normalizeDevice s ≠ "cpu") ∧
    (∀ w : World, w.env "TORCH_CUDA_VERSION" = some "cpu" → w.env "LIBTORCH" = none →
      check_system_location w Os.linux = none →
      (∀ o, w.env "OUT_DIR" = some o → w.fsExists [o, "libtorch"] = false) →
      ∀ r, (prepare_libtorch_dir w Os.linux).1 ≠ Except.ok r) := by
  refine ⟨⟨rfl, rfl⟩, by decide, normalizeDevice_ne_cpu, ?_⟩
  intro w hcuda hlib hsys hfs r hr
  unfold prepare_libtorch_dir at hr
  simp only [hlib, hsys, hcuda,
    show deviceTokenOf (some "cpu") Os.linux = Except.ok "cucpu" from rfl] at hr
  rcases hout : w.env "OUT_DIR" with _ | o <;> simp only [hout] at hr
  · cases hr
  · simp only [hfs o hout, Bool.false_eq_true, if_false] at hr
    simp only [buildUrl, show linuxSuffix "cucpu" = none from rfl] at hr
    cases hr

/-- C9 witness: the failure at the concrete world with
TORCH_CUDA_VERSION=cpu on Linux. -/
theorem C9_witness :
    (prepare_libtorch_dir wCpu Os.linux).1 ≠ Except.ok ["/out", "libtorch", "libtorch"] :=
  C9_thm.2.2.2 wCpu rfl rfl rfl (fun _ _ => rfl) ["/out", "libtorch", "libtorch"]


/-- C5: in download mode (no LIBTORCH override, no system install), when
the fixed libtorch subdirectory of OUT_DIR already exists, resolution
performs no download and no extraction and yields OUT_DIR/libtorch/libtorch,
and every successful run (populated or fresh) yields that same directory. -/
theorem C5_thm (w : World) (os : Os) (o : String)
    (hL : w.env "LIBTORCH" = none) (hsys : check_system_location w os = none)
    (hdev : ∃ d, deviceTokenOf (w.env "TORCH_CUDA_VERSION") os = Except.ok d)
    (hout : w.env "OUT_DIR" = some o) :
    (w.fsExists [o, "libtorch"] = true →
      (prepare_libtorch_dir w os).1 = Except.ok [o, "libtorch", "libtorch"] ∧
      (∀ u, Ev.download u ∉ (prepare_libtorch_dir w os).2) ∧
      Ev.extractArchive ∉ (prepare_libtorch_dir w os).2) ∧
    (∀ r, (prepare_libtorch_dir w os).1 = Except.ok r → r = [o, "libtorch", "libtorch"]) := by
  obtain ⟨d, hd⟩ := hdev
  constructor
  · intro hfs
    unfold prepare_libtorch_dir
    simp only [hL, hsys, hd, hout, hfs, if_true]
    refine ⟨by trivial, ?_, ?_⟩
    · intro u
      simp [rerunEvs]
    · simp [rerunEvs]
  · intro r hr
    unfold prepare_libtorch_dir at hr
    simp only [hL, hsys, hd, hout] at hr
    by_cases hfs : w.fsExists [o, "libtorch"] = true
    · simp only [hfs, if_true] at hr
      exact (Except.ok.inj hr).symm
    · rw [Bool.not_eq_true] at hfs
      simp only [hfs, Bool.false_eq_true, if_false] at hr
      rcases hurl : buildUrl w os d with e | url <;> simp only [hurl] at hr
      · cases hr
      · exact (Except.ok.inj hr).symm

/-- C5 witness: a populated scratch directory on Linux resolves to the
nested libtorch directory without downloading. -/
theorem C5_witness :
    (prepare_libtorch_dir wFresh Os.linux).1 = Except.ok ["/o", "libtorch", "libtorch"] :=
  ((C5_thm wFresh Os.linux "/o" rfl rfl ⟨"cpu", rfl⟩ rfl).1 rfl).1

/-- C6 (counterexample): not every environment variable read by resolution
is registered for rerun: in a concrete Linux world, VIRTUAL_ENV is read but
no rerun-if-env-changed directive is emitted for it. -/
theorem C6_counterexample :
    ¬ (∀ n, Ev.readVar n ∈ (SystemInfo.new wLinuxPlain).2 →
        Ev.rerun n ∈ (SystemInfo.new wLinuxPlain).2) := by
  intro h
  have h1 : Ev.readVar "VIRTUAL_ENV" ∈ (SystemInfo.new wLinuxPlain).2 := by decide
  have h2 := h "VIRTUAL_ENV" h1
  revert h2
  decide

/-- C6 (amended): every environment variable that resolution reads is
either registered with a rerun-if-env-changed directive in the same run, or
is one of the four variables read directly via env::var / env::var_os
(CARGO_CFG_TARGET_OS, VIRTUAL_ENV, OUT_DIR, CARGO_CFG_TARGET_ARCH), which
are never registered. -/
theorem C6_amended_thm (w : World) (n : String)
    (h : Ev.readVar n ∈ (SystemInfo.new w).2) :
    Ev.rerun n ∈ (SystemInfo.new w).2 ∨ n ∈ plainVars :=
  covered_new w n h

/-- C6 witness: the LIBTORCH read in the concrete Linux world is covered. -/
theorem C6_witness :
    Ev.rerun "LIBTORCH" ∈ (SystemInfo.new wLinuxPlain).2 ∨ "LIBTORCH" ∈ plainVars :=
  C6_amended_thm wLinuxPlain "LIBTORCH" (by decide)


/-- C2: when LIBTORCH_USE_PYTORCH is set, resolution never reads LIBTORCH,
its result is unchanged by any value of LIBTORCH, and on success the
include directories and the library directory all come from
LIBTORCH_INCLUDE:/LIBTORCH_LIB: lines of the interpreter probe output. -/
theorem C2_thm (w : World) (v u : String)
    (hUP : w.env "LIBTORCH_USE_PYTORCH" = some u) :
    Ev.readVar "LIBTORCH" ∉ (SystemInfo.new w).2 ∧
    SystemInfo.new (setEnvVar w "LIBTORCH" v) = SystemInfo.new w ∧
    (∀ si, (SystemInfo.new w).1 = Except.ok si →
      ∃ lines, w.pytorchProbe = some lines ∧
        (∀ d ∈ si.libtorch_include_dirs, ∃ q, ("LIBTORCH_INCLUDE: " ++ q) ∈ lines ∧ d = [q]) ∧
        ∃ p, ("LIBTORCH_LIB: " ++ p) ∈ lines ∧ si.libtorch_lib_dir = [p]) := by
  refine ⟨new_no_libtorch_read w u hUP, new_setLibtorch w v u hUP, ?_⟩
  intro si hok
  unfold SystemInfo.new at hok
  rcases hos : parseTargetOs (w.env "CARGO_CFG_TARGET_OS") with e | os <;>
    simp only [hos, hUP] at hok
  · cases hok
  · unfold probeBranch at hok
    rcases hp : w.pytorchProbe with _ | lines <;> simp only [hp] at hok
    · cases hok
    · refine ⟨lines, rfl, ?_⟩
      rcases hpl : (probeLines (w.env "LIBTORCH_BYPASS_VERSION_CHECK") lines ⟨none, [], none⟩).1
        with e | st <;> simp only [hpl] at hok
      · cases hok
      · rcases hcx : st.cxx11_abi with _ | abi <;> simp only [hcx] at hok
        · cases hok
        · rcases hld : st.libdir with _ | libdir <;> simp only [hld] at hok
          · cases hok
          · cases hok
            obtain ⟨hinc, hlib⟩ :=
              probeLines_src (w.env "LIBTORCH_BYPASS_VERSION_CHECK") lines ⟨none, [], none⟩ st hpl
            constructor
            · intro d hd
              rcases hinc d hd with h0 | ⟨q, hq, hdq⟩
              · simp at h0
              · exact ⟨q, hq, hdq⟩
            · rcases hlib libdir hld with h0 | ⟨q, hq, hpq⟩
              · cases h0
              · exact ⟨q, hq, by rw [hpq]⟩

/-- C2 witness: setting LIBTORCH in the externally-managed concrete world
does not change the resolution result. -/
theorem C2_witness :
    SystemInfo.new (setEnvVar wProbe "LIBTORCH" "/elsewhere") = SystemInfo.new wProbe :=
  (C2_thm wProbe "/elsewhere" "1" rfl).2.1

/-- C10: in externally-managed mode, if no probe-output line starts with
"LIBTORCH_VERSION: ", then no version-mismatch failure can occur and
resolution succeeds whenever an ABI line and a library-path line are
present, regardless of the installed version. -/
theorem C10_thm (w : World) (os : Os) (u : String) (lines : List String)
    (hos : parseTargetOs (w.env "CARGO_CFG_TARGET_OS") = Except.ok os)
    (hUP : w.env "LIBTORCH_USE_PYTORCH" = some u)
    (hp : w.pytorchProbe = some lines)
    (hv : ∀ l ∈ lines, dropPre? "LIBTORCH_VERSION: " l = none)
    (hcx : "LIBTORCH_CXX11: True" ∈ lines ∨ "LIBTORCH_CXX11: False" ∈ lines)
    (hlb : ∃ p : String, ("LIBTORCH_LIB: " ++ p) ∈ lines) :
    ∃ si, (SystemInfo.new w).1 = Except.ok si := by
  obtain ⟨st2, hok2, _, _, hct, hcf, hlt⟩ :=
    probeLines_ok (w.env "LIBTORCH_BYPASS_VERSION_CHECK") lines ⟨none, [], none⟩ hv
  have habi : st2.cxx11_abi.isSome = true := by
    rcases hcx with h | h
    · exact hct h
    · exact hcf h
  obtain ⟨p, hpmem⟩ := hlb
  have hlibd : st2.libdir.isSome = true := hlt p hpmem
  obtain ⟨abi, habi'⟩ := Option.isSome_iff_exists.mp habi
  obtain ⟨libdir, hld⟩ := Option.isSome_iff_exists.mp hlibd
  refine ⟨⟨os, pythonInterpreterOf w os, abi, st2.includes, libdir⟩, ?_⟩
  unfold SystemInfo.new
  simp only [hos, hUP]
  unfold probeBranch
  simp only [hp, hok2, habi', hld]

/-- C10 witness: a probe output with only an ABI line and a lib line (no
version line at all) resolves successfully. -/
theorem C10_witness :
    (SystemInfo.new wProbe).1.isOk = true := by
  obtain ⟨si, hsi⟩ :=
    C10_thm wProbe Os.linux "1" ["LIBTORCH_CXX11: True", "LIBTORCH_LIB: /pt/lib"]
      rfl rfl rfl (by decide) (Or.inl (by decide)) ⟨"/pt/lib", by decide⟩
  rw [hsi]
  rfl

end TorchSys
